import Mathlib

set_option maxHeartbeats 1000000

/-
Verification development for cogent/util/parallel.py.

The embedding models, faithfully to the source:
  push / pop            -- the communicator stack (Python list append / pop,
                           with object identity modelled by Nat ids)
  getSplitCommunicators -- the group splitter (jobs is a Python int, so Int)
  localShareOfInit      -- the constructor of localShareOf
  pIterInit / pIterNext / pIterDel -- the _ParallelIter protocol, with an
                           explicit event trace for Barrier calls
  ParaRandom            -- the phased random wrapper over an abstract base
                           random source (a state type with a random step
                           and a reseed function)
-/

namespace CogentParallel

/-- PyError models the Python exception classes raised by the module:
AssertionError from a failed assert statement, IndexError from popping an
empty list. -/
inductive PyError where
  | assertionError
  | indexError
  deriving DecidableEq, Repr

/-- Communicator stack entries are Nat ids standing for Python object
identity, so the assert context2 is context in pop is id equality.
Source: _ParallelisationStack with push(context) doing list append. -/
def push (stack : List Nat) (context : Nat) : List Nat :=
  stack ++ [context]

/-- Source: pop(context=None) pops the last list element (IndexError when
the list is already empty), then asserts identity with context when one is
supplied, and returns the popped element. -/
def pop (stack : List Nat) (context : Option Nat) : Except PyError (Nat × List Nat) :=
  match stack.getLast? with
  | none => Except.error PyError.indexError
  | some context2 =>
    match context with
    | none => Except.ok (context2, stack.dropLast)
    | some c =>
      if context2 = c then Except.ok (context2, stack.dropLast)
      else Except.error PyError.assertionError

/-- SplitPiece describes which communicator object getSplitCommunicators
returns in each component: a fresh _FakeCommunicator() (size 1, rank 0),
the original comm object unchanged, or comm.Split(colour, key). -/
inductive SplitPiece where
  | fake
  | orig
  | split (colour : Nat) (key : Nat)
  deriving DecidableEq, Repr

/-- Source: getSplitCommunicators(jobs) with comm of the given size and
rank.  assert jobs > 0; group_count = min(jobs, size); the three branches
return (next, sub) as in the code.  jobs is a Python int, hence Int; in
the branches jobs > 0 holds so jobs.toNat is the same number. -/
def getSplitCommunicators (size rank : Nat) (jobs : Int) :
    Except PyError (SplitPiece × SplitPiece) :=
  if 0 < jobs then
    let group_count := min jobs.toNat size
    if group_count = 1 then
      Except.ok (SplitPiece.fake, SplitPiece.orig)
    else if group_count = size then
      Except.ok (SplitPiece.orig, SplitPiece.fake)
    else
      Except.ok (SplitPiece.split (rank / group_count) rank,
                 SplitPiece.split (rank % group_count) rank)
  else
    Except.error PyError.assertionError

/-- Membership semantics of comm.Split on a communicator of size S: the
new communicator with colour c contains exactly the ranks that supplied
colour c (the key, equal to rank here, only orders members). -/
def splitMembers (S : Nat) (colourOf : Nat → Nat) (c : Nat) : Finset Nat :=
  (Finset.range S).filter (fun r => colourOf r = c)

/-- Source: localShareOf.__init__ stores the value list and calls
getSplitCommunicators(len(values)); any assertion failure there
propagates. -/
def localShareOfInit (size rank : Nat) (values : List Nat) :
    Except PyError (List Nat × SplitPiece × SplitPiece) :=
  match getSplitCommunicators size rank (values.length : Int) with
  | Except.ok p => Except.ok (values, p)
  | Except.error e => Except.error e

end CogentParallel

namespace CogentParallel

/-- Claim C5 counterexample: on a stack holding a single communicator,
pop() succeeds and returns it, leaving the stack empty.  The claim states
pop fails whenever the removal would leave the stack empty; the code has
no such guard, so a base communicator does not always remain. -/
theorem c5_counterexample :
    pop (push [] 7) none = Except.ok (7, []) := rfl

/-- Claim C5 (amended): pop removes and returns the top communicator; it
fails with an AssertionError-class condition iff expected is supplied and
is not identical to the removed value; when the stack is already empty it
fails with an IndexError-class condition; it does not fail when the
removal leaves the stack empty. -/
theorem c5_amended_pop_spec (st : List Nat) (e : Option Nat) :
    (st.getLast? = none → pop st e = Except.error PyError.indexError)
    ∧ (∀ t, st.getLast? = some t →
        ((e = none ∨ e = some t) → pop st e = Except.ok (t, st.dropLast))
        ∧ (∀ c, e = some c → c ≠ t →
            pop st e = Except.error PyError.assertionError)) := by
  constructor
  · intro h
    simp [pop, h]
  · intro t ht
    constructor
    · rintro (rfl | rfl)
      · simp [pop, ht]
      · simp [pop, ht]
    · rintro c rfl hct
      simp only [pop, ht]
      rw [if_neg (Ne.symm hct)]

/-- Witness for the amended C5 theorem at concrete stacks. -/
theorem c5_witness :
    pop [1, 2] (some 2) = Except.ok (2, [1])
    ∧ pop [1, 2] (some 5) = Except.error PyError.assertionError
    ∧ pop ([] : List Nat) none = Except.error PyError.indexError :=
  ⟨((c5_amended_pop_spec [1, 2] (some 2)).2 2 rfl).1 (Or.inr rfl),
   ((c5_amended_pop_spec [1, 2] (some 5)).2 2 rfl).2 5 rfl (by decide),
   (c5_amended_pop_spec [] none).1 rfl⟩

/-- Claim C6: getSplitCommunicators fails with an assertion violation iff
jobs <= 0; otherwise, with group_count = min(jobs, size), the branch
group_count == 1 returns (fresh degenerate communicator, original comm),
and the elif branch group_count == size (taken when group_count is not 1)
returns (original comm, fresh degenerate communicator). -/
theorem c6_boundary (size rank : Nat) (jobs : Int) :
    (getSplitCommunicators size rank jobs = Except.error PyError.assertionError
        ↔ jobs ≤ 0)
    ∧ (0 < jobs → min jobs.toNat size = 1 →
        getSplitCommunicators size rank jobs
          = Except.ok (SplitPiece.fake, SplitPiece.orig))
    ∧ (0 < jobs → min jobs.toNat size = size → min jobs.toNat size ≠ 1 →
        getSplitCommunicators size rank jobs
          = Except.ok (SplitPiece.orig, SplitPiece.fake)) := by
  by_cases hj : 0 < jobs
  · have hok : ∃ p, getSplitCommunicators size rank jobs = Except.ok p := by
      simp only [getSplitCommunicators, if_pos hj]
      split
      · exact ⟨_, rfl⟩
      · split
        · exact ⟨_, rfl⟩
        · exact ⟨_, rfl⟩
    obtain ⟨p, hp⟩ := hok
    refine ⟨⟨fun h => ?_, fun h => ?_⟩, fun h1 h2 => ?_, fun h1 h2 h3 => ?_⟩
    · rw [hp] at h
      exact absurd h (by simp)
    · omega
    · simp [getSplitCommunicators, if_pos hj, h2]
    · simp only [getSplitCommunicators, if_pos hj]
      rw [if_neg h3, if_pos h2]
  · have he : getSplitCommunicators size rank jobs
        = Except.error PyError.assertionError := by
      simp only [getSplitCommunicators, if_neg hj]
    exact ⟨⟨fun _ => by omega, fun _ => he⟩,
      fun h1 _ => absurd h1 hj, fun h1 _ _ => absurd h1 hj⟩

/-- Witness for C6 at size 3, rank 1, jobs 5 (group_count = size branch). -/
theorem c6_witness :
    getSplitCommunicators 3 1 5 = Except.ok (SplitPiece.orig, SplitPiece.fake) :=
  (c6_boundary 3 1 5).2.2 (by decide) (by decide) (by decide)

/-- Claim C4 counterexample: constructing a distributor over an empty list
does not succeed: localShareOf.__init__ calls getSplitCommunicators(0),
whose assert jobs > 0 fails, so no iteration, push, barrier or pop ever
happens.  The claim states the construction succeeds without error. -/
theorem c4_counterexample :
    localShareOfInit 4 2 [] = Except.error PyError.assertionError := rfl

/-- Claim C4 (amended): constructing a distributor over a list with
N == 0 items fails with an assertion violation (jobs > 0 in
getSplitCommunicators) for every communicator size and rank, before any
entry push or exit barrier-and-pop can be performed. -/
theorem c4_empty_input_asserts (size rank : Nat) :
    localShareOfInit size rank [] = Except.error PyError.assertionError := rfl

/-- Event records the collective operations performed on a communicator,
identified by its object id; _ParallelIter only issues Barrier calls. -/
inductive Event where
  | barrier (commId : Nat)
  deriving DecidableEq, Repr

/-- NextResult is the outcome of one call of _ParallelIter.next: either a
yielded value or a StopIteration exception. -/
inductive NextResult where
  | stopIteration
  | yield (x : Nat)
  deriving DecidableEq, Repr

/-- PIter is the state of a _ParallelIter object: the value list, the id,
size (and initially rank) of the cpus communicator used for striding, the
id of the leftover communicator, and the cursor i.  Items are Nat. -/
structure PIter where
  values : List Nat
  cpusId : Nat
  cpusSize : Nat
  leftoverId : Nat
  i : Nat
  deriving DecidableEq, Repr

/-- Source: _ParallelIter.__init__(values, cpus, leftover) stores the
fields, sets i = cpus.Get_rank() and pushes leftover on the stack.
Returns the new object state and the new stack. -/
def pIterInit (values : List Nat) (cpusId cpusRank cpusSize leftoverId : Nat)
    (stack : List Nat) : PIter × List Nat :=
  (⟨values, cpusId, cpusSize, leftoverId, cpusRank⟩, push stack leftoverId)

/-- Source: _ParallelIter.next does leftover.Barrier() first, then raises
StopIteration when i >= len(values), else yields values[i] and advances i
by cpus.Get_size().  Returns (event trace, outcome, new state). -/
def pIterNext (st : PIter) : List Event × NextResult × PIter :=
  ([Event.barrier st.leftoverId],
    if st.values.length ≤ st.i then
      (NextResult.stopIteration, st)
    else
      (NextResult.yield (st.values.getD st.i 0),
        { st with i := st.i + st.cpusSize }))

/-- State component of one next call. -/
def pIterStep (st : PIter) : PIter :=
  (pIterNext st).2.2

/-- Consuming loop: repeatedly call next, collecting the yielded values,
until StopIteration (fuel bounds the number of next calls). -/
def pIterRun : Nat → PIter → List Nat
  | 0, _ => []
  | fuel + 1, st =>
    match (pIterNext st).2 with
    | (NextResult.stopIteration, _) => []
    | (NextResult.yield x, st2) => x :: pIterRun fuel st2

/-- Source: _ParallelIter.__del__ does cpus.Barrier() then
pop(self.leftover), asserting the popped communicator is the one pushed
at construction. -/
def pIterDel (st : PIter) (stack : List Nat) :
    List Event × Except PyError (Nat × List Nat) :=
  ([Event.barrier st.cpusId], pop stack (some st.leftoverId))

lemma pIterStep_fields (st : PIter) :
    (pIterStep st).cpusId = st.cpusId
    ∧ (pIterStep st).leftoverId = st.leftoverId := by
  by_cases h : st.values.length ≤ st.i <;> simp [pIterStep, pIterNext, h]

lemma pIterStep_iterate_fields (k : Nat) (st : PIter) :
    (pIterStep^[k] st).cpusId = st.cpusId
    ∧ (pIterStep^[k] st).leftoverId = st.leftoverId := by
  induction k generalizing st with
  | zero => simp
  | succ k ih =>
    rw [Function.iterate_succ_apply]
    exact ⟨((ih (pIterStep st)).1).trans (pIterStep_fields st).1,
      ((ih (pIterStep st)).2).trans (pIterStep_fields st).2⟩

lemma pop_push (stack : List Nat) (x : Nat) :
    pop (push stack x) (some x) = Except.ok (x, stack) := by
  simp [pop, push, List.getLast?_concat, List.dropLast_concat]

/-- Claim C3: a work distributor session that pushed the leftover
communicator at construction and then performed any number k of next
calls (k covers every exit path: running to exhaustion, breaking early or
an exception stopping the loop after k items, none of which touch the
stack) ends, when the iterator is finalized, with a single closing
barrier on the cpus communicator followed by exactly one pop of the
pushed communicator, and the pop succeeds and returns the stack to its
pre-iteration state. -/
theorem c3_cleanup (values : List Nat)
    (cpusId cpusRank cpusSize leftoverId : Nat) (stack : List Nat) (k : Nat) :
    (pIterDel (pIterStep^[k] (pIterInit values cpusId cpusRank cpusSize leftoverId stack).1)
        (pIterInit values cpusId cpusRank cpusSize leftoverId stack).2).1
      = [Event.barrier cpusId]
    ∧ (pIterDel (pIterStep^[k] (pIterInit values cpusId cpusRank cpusSize leftoverId stack).1)
        (pIterInit values cpusId cpusRank cpusSize leftoverId stack).2).2
      = Except.ok (leftoverId, stack) := by
  have h := pIterStep_iterate_fields k
    (pIterInit values cpusId cpusRank cpusSize leftoverId stack).1
  constructor
  · simp only [pIterDel]
    rw [h.1]
    rfl
  · simp only [pIterDel]
    rw [h.2]
    exact pop_push stack leftoverId

/-- Claim C10: every call of _ParallelIter.next performs a barrier on the
communicator that was pushed at construction (the leftover communicator)
unconditionally, also when the cursor is already past the end, and it
raises StopIteration iff the cursor is >= len(values) at that call; the
last two conjuncts record that pIterInit pushes exactly the leftover id
that pIterNext barriers on. -/
theorem c10_barrier_every_call (st : PIter) (values : List Nat)
    (cpusId cpusRank cpusSize leftoverId : Nat) (stack : List Nat) :
    (pIterNext st).1 = [Event.barrier st.leftoverId]
    ∧ ((pIterNext st).2.1 = NextResult.stopIteration ↔ st.values.length ≤ st.i)
    ∧ (pIterInit values cpusId cpusRank cpusSize leftoverId stack).2
        = push stack leftoverId
    ∧ (pIterInit values cpusId cpusRank cpusSize leftoverId stack).1.leftoverId
        = leftoverId := by
  refine ⟨rfl, ?_, rfl, rfl⟩
  by_cases h : st.values.length ≤ st.i <;> simp [pIterNext, h]

lemma stripe_count_step (N i s : Nat) (hs : 1 ≤ s) (hlt : i < N) :
    (N - i + s - 1) / s = (N - (i + s) + s - 1) / s + 1 := by
  have e1 : N - i + s - 1 = (N - i - 1) + s := by omega
  rw [e1, Nat.add_div_right _ (by omega)]
  congr 1
  by_cases hMs : N - i ≤ s
  · have z1 : (N - i - 1) / s = 0 := Nat.div_eq_of_lt (by omega)
    have z2 : (s - 1) / s = 0 := Nat.div_eq_of_lt (by omega)
    rw [show N - (i + s) + s - 1 = s - 1 from by omega, z1, z2]
  · rw [show N - (i + s) + s - 1 = N - i - 1 from by omega]

lemma pIterRun_stripe (fuel : Nat) (st : PIter) (hs : 1 ≤ st.cpusSize)
    (hfuel : st.values.length - st.i + 1 ≤ fuel) :
    pIterRun fuel st
      = (List.range ((st.values.length - st.i + st.cpusSize - 1) / st.cpusSize)).map
          (fun k => st.values.getD (st.i + k * st.cpusSize) 0) := by
  induction fuel generalizing st with
  | zero => omega
  | succ fuel ih =>
    by_cases h : st.values.length ≤ st.i
    · have hdiv : (st.values.length - st.i + st.cpusSize - 1) / st.cpusSize = 0 := by
        rw [show st.values.length - st.i + st.cpusSize - 1 = st.cpusSize - 1 from by omega]
        exact Nat.div_eq_of_lt (by omega)
      rw [hdiv]
      simp [pIterRun, pIterNext, h]
    · have hrun : pIterRun (fuel + 1) st
          = st.values.getD st.i 0 :: pIterRun fuel { st with i := st.i + st.cpusSize } := by
        simp only [pIterRun, pIterNext]
        rw [if_neg h]
      rw [hrun]
      have ihst := ih { st with i := st.i + st.cpusSize } (by simpa using hs)
        (by simp only []; omega)
      rw [ihst]
      simp only []
      rw [stripe_count_step st.values.length st.i st.cpusSize hs (by omega),
        List.range_succ_eq_map, List.map_cons, List.map_map]
      congr 1
      · simp
      · refine (List.map_congr_left ?_).symm
        intro k hk
        simp only [Function.comp]
        congr 1
        rw [Nat.succ_mul]
        ring

lemma stripe_index_lt (N g s k : Nat) (hs : 1 ≤ s)
    (hk : k < (N - g + s - 1) / s) : g + k * s < N := by
  have h1 : k + 1 ≤ (N - g + s - 1) / s := hk
  have h2 : (k + 1) * s ≤ ((N - g + s - 1) / s) * s := Nat.mul_le_mul_right s h1
  have h3 : ((N - g + s - 1) / s) * s ≤ N - g + s - 1 := Nat.div_mul_le_self _ s
  have h4 : k * s + s ≤ N - g + s - 1 := by
    have e : (k + 1) * s = k * s + s := by rw [Nat.succ_mul]
    rw [e] at h2
    exact le_trans h2 h3
  obtain ⟨A, hA⟩ : ∃ A, k * s = A := ⟨_, rfl⟩
  rw [hA] at h4 ⊢
  omega

lemma stripe_pairwise (g s m : Nat) (hs : 1 ≤ s) :
    List.Pairwise (fun a b => a < b)
      ((List.range m).map (fun k => g + k * s)) := by
  rw [List.pairwise_map]
  exact (List.pairwise_lt_range m).imp
    (fun h => Nat.add_lt_add_left (Nat.mul_lt_mul_of_pos_right h (by omega)) g)

lemma stripe_cover (N s j : Nat) (hs : 1 ≤ s) (hj : j < N) :
    ∃! g, g < s
      ∧ j ∈ (List.range ((N - g + s - 1) / s)).map (fun k => g + k * s) := by
  have hs0 : 0 < s := hs
  have hd := Nat.div_add_mod j s
  have hmle : j % s ≤ j := Nat.mod_le j s
  have hmlt : j % s < s := Nat.mod_lt j hs0
  obtain ⟨A, hA⟩ : ∃ A, (j / s) * s = A := ⟨_, rfl⟩
  have hAr : A + j % s = j := by
    rw [← hA, Nat.mul_comm (j / s) s]
    exact hd
  refine ⟨j % s, ⟨hmlt, ?_⟩, ?_⟩
  · rw [List.mem_map]
    refine ⟨j / s, ?_, ?_⟩
    · rw [List.mem_range]
      have h1 : (j / s) * s ≤ N - 1 - j % s := by
        rw [hA]
        omega
      have h2 : j / s ≤ (N - 1 - j % s) / s := (Nat.le_div_iff_mul_le hs0).mpr h1
      have e3 : N - j % s + s - 1 = (N - 1 - j % s) + s := by omega
      rw [e3, Nat.add_div_right _ hs0]
      exact Nat.lt_succ_of_le h2
    · rw [hA]
      omega
  · rintro y ⟨hy, hmem⟩
    rw [List.mem_map] at hmem
    obtain ⟨k, hkr, hkj⟩ := hmem
    have hmod : (y + k * s) % s = y := by
      rw [Nat.add_mul_mod_self_right]
      exact Nat.mod_eq_of_lt hy
    rw [hkj] at hmod
    exact hmod.symm

/-- Claim C2: for the iterator constructed with stride-rank g and
stride-size s (the rank and size of the cpus communicator), the consuming
loop yields exactly the items at indices g, g + s, g + 2s, ... of the
value list, in increasing index order, all indices below N; and every
index j < N belongs to the index stripe of exactly one stride position
g < s, so the stripes cover the N items exactly once. -/
theorem c2_striping (values : List Nat)
    (cpusId cpusRank cpusSize leftoverId : Nat) (stack : List Nat) (fuel : Nat)
    (hs : 1 ≤ cpusSize) (hg : cpusRank < cpusSize)
    (hfuel : values.length + 1 ≤ fuel) :
    pIterRun fuel (pIterInit values cpusId cpusRank cpusSize leftoverId stack).1
      = ((List.range ((values.length - cpusRank + cpusSize - 1) / cpusSize)).map
          (fun k => cpusRank + k * cpusSize)).map (fun j => values.getD j 0)
    ∧ (∀ k, k < (values.length - cpusRank + cpusSize - 1) / cpusSize →
        cpusRank + k * cpusSize < values.length)
    ∧ List.Pairwise (fun a b => a < b)
        ((List.range ((values.length - cpusRank + cpusSize - 1) / cpusSize)).map
          (fun k => cpusRank + k * cpusSize))
    ∧ (∀ j, j < values.length → ∃! g, g < cpusSize
        ∧ j ∈ (List.range ((values.length - g + cpusSize - 1) / cpusSize)).map
            (fun k => g + k * cpusSize)) := by
  refine ⟨?_, fun k hk => stripe_index_lt values.length cpusRank cpusSize k hs hk,
    stripe_pairwise cpusRank cpusSize _ hs,
    fun j hj => stripe_cover values.length cpusSize j hs hj⟩
  have h1 := pIterRun_stripe fuel
    (pIterInit values cpusId cpusRank cpusSize leftoverId stack).1
    (by simpa [pIterInit] using hs) (by simp [pIterInit]; omega)
  rw [h1, List.map_map]
  rfl

/-- Witness for C2 with five items, stride-size 2, stride-rank 1: the
yield sequence is the odd-index items. -/
theorem c2_witness :
    pIterRun 6 (pIterInit [10, 20, 30, 40, 50] 0 1 2 0 []).1
      = ((List.range ((([10, 20, 30, 40, 50] : List Nat).length - 1 + 2 - 1) / 2)).map
          (fun k => 1 + k * 2)).map (fun j => ([10, 20, 30, 40, 50] : List Nat).getD j 0) :=
  (c2_striping [10, 20, 30, 40, 50] 0 1 2 0 [] 6 (by decide) (by decide) (by decide)).1

/-- BaseRNG is the abstract base random source ParaRandom wraps: a state
type sigma, a random step returning a draw and the next state, and a
reseed function giving the state for a seed value. -/
structure BaseRNG (σ α : Type) where
  random : σ → α × σ
  seed : Int → σ

/-- Running the base source n times from state s, discarding the draws
(the loop for i in range(n): self._rng.random()). -/
def discardDraws (b : BaseRNG σ α) : Nat → σ → σ
  | 0, s => s
  | n + 1, s => discardDraws b n (b.random s).2

/-- Draw number n (0-based) of the base sequence started at state s. -/
def nthDraw (b : BaseRNG σ α) (s : σ) (n : Nat) : α :=
  (b.random (discardDraws b n s)).1

/-- ParaRandom state: the wrapped source, its current state, and the
process count and rank (fields _rng, _num_proc, _rank of the source). -/
structure ParaRandom (σ α : Type) where
  rng : BaseRNG σ α
  st : σ
  num_proc : Nat
  rank : Nat

/-- Source: ParaRandom.__init__ stores the generator, num_proc and rank,
then discards exactly rank draws from the base source. -/
def mkParaRandom (rng : BaseRNG σ α) (s : σ) (num_proc rank : Nat) :
    ParaRandom σ α :=
  ⟨rng, discardDraws rng rank s, num_proc, rank⟩

/-- Source: ParaRandom.random takes r = self._rng.random() as the result,
then discards num_proc further draws (for i in range(self._num_proc)). -/
def ParaRandom.random (p : ParaRandom σ α) : α × ParaRandom σ α :=
  let r := p.rng.random p.st
  (r.1, { p with st := discardDraws p.rng p.num_proc r.2 })

/-- Source: ParaRandom.seed(arg) only calls self._rng.seed(arg); the
rank and num_proc fields are untouched and no draws are discarded. -/
def ParaRandom.seed (p : ParaRandom σ α) (arg : Int) : ParaRandom σ α :=
  { p with st := p.rng.seed arg }

/-- Base source whose draw sequence from state 0 is 0, 1, 2, ... -/
def counterRNG : BaseRNG Nat Nat :=
  ⟨fun n => (n, n + 1), fun v => v.toNat⟩

/-- Claim C1 (code bug evidence): with num_proc = 1 and rank = 0 over the
counter source, the second random() call returns base draw number 2, not
draw number 1: random() discards num_proc draws after taking its result
(the loop runs range(self._num_proc), not range(self._num_proc - 1)), so
call n on rank r returns draw r + n * (num_proc + 1) instead of the
documented r + n * num_proc, and num_proc == 1 is not a pass-through. -/
theorem c1_phase_stride_eval :
    (ParaRandom.random (ParaRandom.random (mkParaRandom counterRNG 0 1 0)).2).1
      = nthDraw counterRNG 0 2
    ∧ nthDraw counterRNG 0 2 ≠ nthDraw counterRNG 0 1 :=
  ⟨rfl, by decide⟩

/-- Claim C8: construction of the wrapper advances the base source by
exactly rank discarded draws, so the first result returned by random()
on the new instance is draw number rank (0-based) of the undivided base
sequence. -/
theorem c8_construction_offset (σ α : Type) (b : BaseRNG σ α) (s : σ)
    (P r : Nat) (hP : 1 ≤ P) (hr : r < P) :
    (mkParaRandom b s P r).st = discardDraws b r s
    ∧ (ParaRandom.random (mkParaRandom b s P r)).1 = nthDraw b s r :=
  ⟨rfl, rfl⟩

/-- Witness for C8 at the counter source with P = 2, r = 1. -/
theorem c8_witness :
    (1 ≤ 2 ∧ 1 < 2)
    ∧ ((mkParaRandom counterRNG 0 2 1).st = discardDraws counterRNG 1 0
        ∧ (ParaRandom.random (mkParaRandom counterRNG 0 2 1)).1
            = nthDraw counterRNG 0 1) :=
  ⟨⟨by decide, by decide⟩,
    c8_construction_offset Nat Nat counterRNG 0 2 1 (by decide) (by decide)⟩

/-- Claim C9: seed(value) only reseeds the wrapped base source, leaving
num_proc and rank untouched and re-applying no rank offset, so the next
random() call returns draw number 0 of the reseeded base sequence, and
two instances with the same base source return the same first draw after
reseeding with the same value regardless of their ranks. -/
theorem c9_seed_resets (σ α : Type) (p : ParaRandom σ α) (v : Int) :
    (ParaRandom.seed p v).rng = p.rng
    ∧ (ParaRandom.seed p v).num_proc = p.num_proc
    ∧ (ParaRandom.seed p v).rank = p.rank
    ∧ (ParaRandom.seed p v).st = p.rng.seed v
    ∧ (ParaRandom.random (ParaRandom.seed p v)).1 = nthDraw p.rng (p.rng.seed v) 0
    ∧ (∀ q : ParaRandom σ α, q.rng = p.rng →
        (ParaRandom.random (ParaRandom.seed q v)).1
          = (ParaRandom.random (ParaRandom.seed p v)).1) := by
  refine ⟨rfl, rfl, rfl, rfl, rfl, ?_⟩
  intro q hq
  simp [ParaRandom.seed, ParaRandom.random, hq]

/-- Witness for C9: two differently-phased instances over the counter
source agree on the first draw after reseeding with the same value. -/
theorem c9_witness :
    (ParaRandom.random (ParaRandom.seed (mkParaRandom counterRNG 7 4 1) 0)).1
      = (ParaRandom.random (ParaRandom.seed (mkParaRandom counterRNG 5 3 2) 0)).1 :=
  (c9_seed_resets Nat Nat (mkParaRandom counterRNG 5 3 2) 0).2.2.2.2.2
    (mkParaRandom counterRNG 7 4 1) rfl

lemma filter_mod_eq_image (S g c : Nat) (hg : 0 < g) (hcg : c < g) (hcS : c < S) :
    (Finset.range S).filter (fun r => r % g = c)
      = (Finset.range ((S - 1 - c) / g + 1)).image (fun k => c + k * g) := by
  ext r
  simp only [Finset.mem_filter, Finset.mem_range, Finset.mem_image]
  constructor
  · rintro ⟨hrS, hrm⟩
    have hd := Nat.div_add_mod r g
    rw [hrm] at hd
    obtain ⟨A, hA⟩ : ∃ A, (r / g) * g = A := ⟨_, rfl⟩
    have hAr : A + c = r := by
      rw [← hA, Nat.mul_comm (r / g) g]
      exact hd
    refine ⟨r / g, ?_, ?_⟩
    · have h1 : (r / g) * g ≤ S - 1 - c := by
        rw [hA]
        omega
      exact Nat.lt_succ_of_le ((Nat.le_div_iff_mul_le hg).mpr h1)
    · rw [hA]
      omega
  · rintro ⟨k, hk, rfl⟩
    have hkg : k * g ≤ S - 1 - c := (Nat.le_div_iff_mul_le hg).mp (by omega)
    constructor
    · obtain ⟨A, hA⟩ : ∃ A, k * g = A := ⟨_, rfl⟩
      rw [hA] at hkg ⊢
      omega
    · rw [Nat.add_mul_mod_self_right]
      exact Nat.mod_eq_of_lt hcg

lemma card_filter_mod (S g c : Nat) (hg : 0 < g) (hcg : c < g) (hcS : c < S) :
    ((Finset.range S).filter (fun r => r % g = c)).card = (S - 1 - c) / g + 1 := by
  rw [filter_mod_eq_image S g c hg hcg hcS,
    Finset.card_image_of_injective _ (fun a b hab => by
      have h1 : a * g = b * g := by omega
      exact Nat.eq_of_mul_eq_mul_right hg h1),
    Finset.card_range]

lemma card_filter_mod_balanced (S g c₁ c₂ : Nat) (hg : 0 < g)
    (h1 : c₁ < g) (h2 : c₂ < g) (hS : g < S) :
    ((Finset.range S).filter (fun r => r % g = c₁)).card
      ≤ ((Finset.range S).filter (fun r => r % g = c₂)).card + 1 := by
  rw [card_filter_mod S g c₁ hg h1 (by omega), card_filter_mod S g c₂ hg h2 (by omega)]
  have hab : S - 1 - c₁ ≤ (S - 1 - c₂) + g := by omega
  have hdiv := Nat.div_le_div_right (c := g) hab
  rw [Nat.add_div_right _ hg] at hdiv
  exact Nat.add_le_add_right hdiv 1

/-- Claim C7: in the middle case 1 < group_count < size (group_count =
min(jobs, size)), getSplitCommunicators returns outer =
comm.Split(rank // group_count, rank) and inner =
comm.Split(rank % group_count, rank); under the split-membership
semantics every rank lies in exactly one inner group and exactly one
outer group, the inner groups (colours 0 .. group_count - 1) partition
the rank set (pairwise disjoint, union = all ranks), and inner group
sizes differ by at most 1. -/
theorem c7_middle_split (size rank : Nat) (jobs : Int) (g : Nat)
    (hg : g = min jobs.toNat size) (h1 : 1 < g) (h2 : g < size)
    (hrank : rank < size) :
    getSplitCommunicators size rank jobs
        = Except.ok (SplitPiece.split (rank / g) rank,
            SplitPiece.split (rank % g) rank)
    ∧ (∀ r, r < size → ∃! c, r ∈ splitMembers size (fun x => x % g) c)
    ∧ (∀ r, r < size → ∃! c, r ∈ splitMembers size (fun x => x / g) c)
    ∧ (∀ c₁ c₂, c₁ ≠ c₂ →
        Disjoint (splitMembers size (fun x => x % g) c₁)
          (splitMembers size (fun x => x % g) c₂))
    ∧ (Finset.range g).biUnion (splitMembers size (fun x => x % g))
        = Finset.range size
    ∧ (∀ c₁ c₂, c₁ < g → c₂ < g →
        (splitMembers size (fun x => x % g) c₁).card
          ≤ (splitMembers size (fun x => x % g) c₂).card + 1) := by
  have hj : 0 < jobs := by omega
  refine ⟨?_, ?_, ?_, ?_, ?_, ?_⟩
  · simp only [getSplitCommunicators, if_pos hj, ← hg]
    rw [if_neg (by omega), if_neg (by omega)]
  · intro r hr
    refine ⟨r % g, ?_, ?_⟩
    · simp [splitMembers, hr]
    · intro y hy
      simp only [splitMembers, Finset.mem_filter, Finset.mem_range] at hy
      exact hy.2.symm
  · intro r hr
    refine ⟨r / g, ?_, ?_⟩
    · simp [splitMembers, hr]
    · intro y hy
      simp only [splitMembers, Finset.mem_filter, Finset.mem_range] at hy
      exact hy.2.symm
  · intro c₁ c₂ hne
    rw [Finset.disjoint_left]
    intro a ha hb
    simp only [splitMembers, Finset.mem_filter, Finset.mem_range] at ha hb
    exact hne (ha.2.symm.trans hb.2)
  · ext r
    simp only [Finset.mem_biUnion, Finset.mem_range, splitMembers, Finset.mem_filter]
    constructor
    · rintro ⟨c, _, hrS, _⟩
      exact hrS
    · intro hrS
      exact ⟨r % g, Nat.mod_lt r (by omega), hrS, rfl⟩
  · intro c₁ c₂ hc₁ hc₂
    simpa [splitMembers] using
      card_filter_mod_balanced size g c₁ c₂ (by omega) hc₁ hc₂ h2

/-- Witness for C7 at size 5, rank 4, jobs 3 (group_count 3). -/
theorem c7_witness :
    getSplitCommunicators 5 4 3
      = Except.ok (SplitPiece.split (4 / 3) 4, SplitPiece.split (4 % 3) 4) :=
  (c7_middle_split 5 4 3 3 (by decide) (by decide) (by decide) (by decide)).1

end CogentParallel
